import Mathlib

/-!
Verification development for the terragrunt-utils configuration evaluator.

The Go sources are shallowly embedded:
* `terragrunt.go` — `ParseConfig`, `decodeAsTerragruntConfigFile`,
  `convertToTerragruntConfig`, `updateBareIncludeBlock`, the config structs;
* the dependency-resolution file — `decodeAndRetrieveOutputs`,
  `dependencyBlocksToCtyValue`, `setRenderedOutputs`, `getTerragruntOutput`,
  `getTerragruntOutputIfAppliedElseConfiguredDefault`,
  `terraformOutputJsonToCtyValueMap`;
* the eval-context / value-bridge file — `CreateTerragruntEvalContext`,
  `generateTypeFromValuesMap`, `parseCtyValueToMap`.

Modelling conventions:
* cty values are modelled by an inductive `CtyVal` covering the shapes the
  configuration claims exercise (null, bool, number, string, object); cty
  collection types (lists, sets, homogeneous maps) are outside the scope of
  this embedding.  cty numbers are modelled by integers; nothing proved here
  depends on non-integral numerics.
* Go `map[string]T` values are modelled by association lists in insertion
  order; map-key iteration order never changes any statement proved below
  (all concrete evaluations are on fixed inputs, and the generic theorems
  are order-independent equalities).
* Go functions that can panic (nil-pointer dereference) return a `GoR`
  result whose `crash` constructor records the runtime panic; `err` is an
  ordinary returned `error` value.
* the HCL parser, the gohcl structural decoder and the HCL expression
  evaluator are out-of-scope collaborators: a `Document` is a parsed,
  syntactically valid file carrying both the hclwrite view of its top-level
  blocks and the decoded attribute views, with attribute expressions already
  evaluated.
-/

namespace Terragrunt

/-! ## cty values (subset) and Go dynamic values -/

/-- Model of `cty.Type`: the primitive types, the dynamic pseudo-type and
object (record) types.  These are the types produced by the functions in
scope (`generateTypeFromValuesMap`, `ctyjson.UnmarshalType` on the inputs
it receives here). -/
inductive CtyType where
  | string
  | number
  | bool
  | dynamic
  | object (fields : List (String × CtyType))

/-- Model of `cty.Value` restricted to the shapes the claims exercise:
null (carrying its type), booleans, numbers (integral), strings and
objects (records with per-field types). -/
inductive CtyVal where
  | nullV (t : CtyType)
  | boolV (b : Bool)
  | numV (n : Int)
  | strV (s : String)
  | objectV (fields : List (String × CtyVal))

/-- Model of a Go `interface\x7b\x7d` value as produced by
`encoding/json.Unmarshal` into untyped containers: null, bool, number
(Go `float64`, integral here), string, `[]interface` slices and
`map[string]interface` maps. -/
inductive GoVal where
  | null
  | boolV (b : Bool)
  | numV (n : Int)
  | strV (s : String)
  | arr (elems : List GoVal)
  | mapV (fields : List (String × GoVal))

/-- Model of the Go `error` values the embedded functions can return. -/
inductive GoError where
  /-- `parseCtyValueToMap`: the marshalled JSON does not unmarshal into
  `CtyJsonOutput` (its `Value` field needs a JSON object or null). -/
  | conversionFailed
  /-- `ctyjson.UnmarshalType`: the type JSON names an unsupported
  primitive type. -/
  | unsupportedPrimitiveTypeName (name : String)
  /-- `ctyjson.Unmarshal`: the value JSON cannot be decoded (or converted)
  at the requested type. -/
  | valueConversionFailed
  /-- `updateBareIncludeBlock`: "multiple bare include blocks (include
  blocks without label) is not supported". -/
  | multipleBareIncludes
  /-- `ParseConfig`: "no terragrunt configuration found". -/
  | noConfigurationFound
deriving DecidableEq

/-- Result of running a Go function: a runtime panic (`crash`), a returned
non-nil `error` (`err`), or a normal result (`ok`). -/
inductive GoR (α : Type) where
  | crash (msg : String)
  | err (e : GoError)
  | ok (val : α)

/-- The Go runtime panic message for dereferencing a nil pointer. -/
def nilPointerDereferenceMsg : String :=
  "runtime error: invalid memory address or nil pointer dereference"

-- Net effect of `ctyjson.Marshal` followed by `json.Unmarshal` into an
-- untyped Go container, on one cty value: numbers become Go `float64`,
-- strings/bools map across, objects become `map[string]interface` values.
mutual
def ctyToGoVal : CtyVal → GoVal
  | .nullV _ => .null
  | .boolV b => .boolV b
  | .numV n => .numV n
  | .strV s => .strV s
  | .objectV fs => .mapV (ctyFieldsToGo fs)
def ctyFieldsToGo : List (String × CtyVal) → List (String × GoVal)
  | [] => []
  | (k, v) :: rest => (k, ctyToGoVal v) :: ctyFieldsToGo rest
end

-- Model of `cty.Value.Type()` on the embedded value subset.
mutual
def ctyTypeOf : CtyVal → CtyType
  | .nullV t => t
  | .boolV _ => .bool
  | .numV _ => .number
  | .strV _ => .string
  | .objectV fs => .object (ctyFieldTypes fs)
def ctyFieldTypes : List (String × CtyVal) → List (String × CtyType)
  | [] => []
  | (k, v) :: rest => (k, ctyTypeOf v) :: ctyFieldTypes rest
end

/-! ## Value bridge (`parseCtyValueToMap`, `generateTypeFromValuesMap`) -/

/-- Embedding of `parseCtyValueToMap`: marshal the cty value to JSON with
`cty.DynamicPseudoType`, unmarshal into `CtyJsonOutput` and keep its
`Value` field (a `map[string]interface` value).  The JSON round trip
succeeds exactly when the wrapped value is a JSON object (an assigned map
holding its fields converted by `ctyToGoVal`, `some`) or JSON null
(`json.Unmarshal` then leaves the map field at the nil map, `none`). -/
def parseCtyValueToMap (value : CtyVal) :
    Except GoError (Option (List (String × GoVal))) :=
  match value with
  | .objectV fs => .ok (some (ctyFieldsToGo fs))
  | .nullV _ => .ok none
  | _ => .error .conversionFailed

/-- Embedding of `generateTypeFromValuesMap`: an object type with one
field per map entry, typed by that entry's runtime type. -/
def generateTypeFromValuesMap (valMap : List (String × CtyVal)) : CtyType :=
  .object (ctyFieldTypes valMap)

/-! ## Go `reflect` and `fmt` behaviour used by `getTerragruntOutput` -/

/-- Model of `reflect.TypeOf(v).String()` on an untyped JSON-decoded value.
`reflect.TypeOf` of a nil interface value returns the nil `reflect.Type`,
on which `String()` panics, hence the `Option`. -/
def reflectTypeString : GoVal → Option String
  | .null => none
  | .boolV _ => some "bool"
  | .numV _ => some "float64"
  | .strV _ => some "string"
  | .arr _ => some "[]interface \x7b\x7d"
  | .mapV _ => some "map[string]interface \x7b\x7d"

/-- Key-ordered insertion used to model `fmt`'s sorted printing of map
keys. -/
def insertByKey {α : Type} (p : String × α) :
    List (String × α) → List (String × α)
  | [] => [p]
  | q :: rest => if p.1 ≤ q.1 then p :: q :: rest else q :: insertByKey p rest

/-- Sort an association list by key (insertion sort), as `fmt` sorts map
keys before printing. -/
def sortByKey {α : Type} : List (String × α) → List (String × α)
  | [] => []
  | p :: rest => insertByKey p (sortByKey rest)

-- Model of the Go `fmt` rendering of a value under the `%s` verb at
-- nesting depth greater than zero (inside a slice or map): map entries are
-- rendered as key-tagged pairs, then printed in sorted key order.
mutual
def fmtSprintfSDepth : GoVal → String
  | .null => "<nil>"
  | .boolV b => "%!s(bool=" ++ (if b then "true" else "false") ++ ")"
  | .numV n => "%!s(float64=" ++ toString n ++ ")"
  | .strV s => s
  | .arr es => "[" ++ String.intercalate " " (fmtList es) ++ "]"
  | .mapV fs =>
      "map[" ++
        String.intercalate " "
          ((sortByKey (fmtMap fs)).map (fun p => p.1 ++ ":" ++ p.2)) ++
      "]"
def fmtList : List GoVal → List String
  | [] => []
  | v :: rest => fmtSprintfSDepth v :: fmtList rest
def fmtMap : List (String × GoVal) → List (String × String)
  | [] => []
  | (k, v) :: rest => (k, fmtSprintfSDepth v) :: fmtMap rest
end

/-- Model of `fmt.Sprintf` with a single `%s` verb applied to an untyped
value: strings print verbatim; every non-string value is reported through
the bad-verb notation (top-level nil interface prints as the bad-verb nil
marker). -/
def fmtSprintfS : GoVal → String
  | .null => "%!s(<nil>)"
  | v => fmtSprintfSDepth v

/-! ## cty JSON codec on the inputs `getTerragruntOutput` produces

In the source, `terraformOutputJsonToCtyValueMap` receives `jsonBytes`
whose entries were marshalled from `getTerragruntOutput`'s string-typed
`OutputMeta`; each `Type`/`Value` raw message is therefore a JSON string
token.  The models below take the decoded string contents directly (the
`json.Marshal` / `json.Unmarshal` round trip on this shape is the
identity). -/

/-- Per-output metadata as produced by `getTerragruntOutput`: `Sensitive`,
`Type` and `Value`, the latter two Go strings. -/
structure OutputMeta where
  sensitive : Bool
  type : String
  value : String

/-- Model of `ctyjson.UnmarshalType` applied to a JSON string token: the
recognised primitive type names decode, every other name is rejected with
an unsupported-primitive-type error. -/
def ctyjsonUnmarshalTypeName (name : String) : Except GoError CtyType :=
  if name = "string" then .ok .string
  else if name = "number" then .ok .number
  else if name = "bool" then .ok .bool
  else if name = "dynamic" then .ok .dynamic
  else .error (.unsupportedPrimitiveTypeName name)

/-- Model of `ctyjson.Unmarshal` applied to a JSON string token at the
given cty type: at `cty.String` the string decodes as itself; at
`cty.Bool` / `cty.Number` the string is converted when it is a valid
bool / number literal; nothing else accepts a bare string token. -/
def ctyjsonUnmarshalStringValue (s : String) : CtyType → Except GoError CtyVal
  | .string => .ok (.strV s)
  | .bool =>
      if s = "true" then .ok (.boolV true)
      else if s = "false" then .ok (.boolV false)
      else .error .valueConversionFailed
  | .number =>
      match s.toInt? with
      | some n => .ok (.numV n)
      | none => .error .valueConversionFailed
  | _ => .error .valueConversionFailed

/-- Embedding of `terraformOutputJsonToCtyValueMap` on the decoded output
map: for each entry, decode the type JSON, then decode the value JSON at
that type; the first failure aborts. -/
def terraformOutputJsonToCtyValueMap :
    List (String × OutputMeta) → Except GoError (List (String × CtyVal))
  | [] => .ok []
  | (k, m) :: rest =>
    match ctyjsonUnmarshalTypeName m.type with
    | .error e => .error e
    | .ok t =>
      match ctyjsonUnmarshalStringValue m.value t with
      | .error e => .error e
      | .ok v =>
        match terraformOutputJsonToCtyValueMap rest with
        | .error e => .error e
        | .ok flattened => .ok ((k, v) :: flattened)

/-! ## Dependency declarations and the dependency resolver -/

/-- The attributes of a `dependency` block that the hcl decoder reads
(struct tags of `Dependency` in `terragrunt.go`). -/
structure DependencyBlock where
  name : String
  configPath : String
  skipOutputs : Option Bool
  mockOutputs : Option CtyVal
  mockOutputsAllowedTerraformCommands : Option (List String)
  mockOutputsMergeWithState : Option Bool

/-- Embedding of the `Dependency` struct.  `renderedOutputs` carries no
hcl tag in the source, so structural decoding leaves it at the zero value
(nil pointer, modelled `none`). -/
structure Dependency where
  name : String
  configPath : String
  skipOutputs : Option Bool
  mockOutputs : Option CtyVal
  mockOutputsAllowedTerraformCommands : Option (List String)
  mockOutputsMergeWithState : Option Bool
  renderedOutputs : Option CtyVal

/-- Structural decode of one `dependency` block: every tagged field is
copied, `RenderedOutputs` is not read from the document. -/
def decodeDependencyBlock (b : DependencyBlock) : Dependency :=
  { name := b.name
    configPath := b.configPath
    skipOutputs := b.skipOutputs
    mockOutputs := b.mockOutputs
    mockOutputsAllowedTerraformCommands := b.mockOutputsAllowedTerraformCommands
    mockOutputsMergeWithState := b.mockOutputsMergeWithState
    renderedOutputs := none }

/-- Embedding of `getTerragruntOutput`.  The source dereferences
`dependencyConfig.MockOutputs` unconditionally, so a dependency without
`mock_outputs` crashes with a nil-pointer dereference.  Otherwise each
mock entry is turned into an `OutputMeta` whose `Type` is the Go
`reflect` type string of the JSON-decoded value and whose `Value` is its
`%s` rendering; the map is marshalled to JSON (`isEmpty` exactly when it
has no entries) and fed to `terraformOutputJsonToCtyValueMap`, and the
resulting value map is wrapped into one object value. -/
def getTerragruntOutput (dependencyConfig : Dependency) : GoR (CtyVal × Bool) :=
  match dependencyConfig.mockOutputs with
  | none => .crash nilPointerDereferenceMsg
  | some mock =>
    match parseCtyValueToMap mock with
    | .error e => .err e
    | .ok mockOutputs =>
      -- ranging over a nil Go map iterates zero times, like the empty map
      match buildOutputMetas (mockOutputs.getD []) with
      | none => .crash nilPointerDereferenceMsg
      | some outputs =>
        let isEmpty := outputs.isEmpty
        match terraformOutputJsonToCtyValueMap outputs with
        | .error e => .err e
        | .ok outputMap => .ok (.objectV outputMap, isEmpty)
where
  /-- The loop building `outputs`: `reflect.TypeOf(v).String()` panics on a
  nil interface value (`none` result); otherwise the meta entry is built
  with `Sensitive` left false. -/
  buildOutputMetas : List (String × GoVal) → Option (List (String × OutputMeta))
    | [] => some []
    | (k, v) :: rest =>
      match reflectTypeString v with
      | none => none
      | some t =>
        match buildOutputMetas rest with
        | none => none
        | some ms => some ((k, ⟨false, t, fmtSprintfS v⟩) :: ms)

/-- Embedding of `getTerragruntOutputIfAppliedElseConfiguredDefault`: both
the empty and the non-empty branch return the output value unchanged (the
second returns it with the nil error). -/
def getTerragruntOutputIfAppliedElseConfiguredDefault
    (dependencyConfig : Dependency) : GoR CtyVal :=
  match getTerragruntOutput dependencyConfig with
  | .crash m => .crash m
  | .err e => .err e
  | .ok (outputVal, _isEmpty) => .ok outputVal

/-- Embedding of `(*Dependency).setRenderedOutputs` on a non-nil receiver
(the resolver calls it on the address of a loop variable, never nil): on
success the receiver's `RenderedOutputs` is set to the returned pointer. -/
def setRenderedOutputs (dependencyConfig : Dependency) : GoR Dependency :=
  match getTerragruntOutputIfAppliedElseConfiguredDefault dependencyConfig with
  | .crash m => .crash m
  | .err e => .err e
  | .ok outputVal => .ok { dependencyConfig with renderedOutputs := some outputVal }

/-- Go map assignment `m[k] = v` on an association list: replace the
binding if the key exists, append otherwise. -/
def insertGoMap (m : List (String × CtyVal)) (k : String) (v : CtyVal) :
    List (String × CtyVal) :=
  match m with
  | [] => [(k, v)]
  | (k0, v0) :: rest =>
    if k0 = k then (k0, v) :: rest else (k0, v0) :: insertGoMap rest k v

/-- The loop of `dependencyBlocksToCtyValue`: render each dependency's
outputs, nest them under `outputs` when set, and key the encoded map by
the block name.  `gocty.ToCtyValue` at the type generated from the very
same value map always succeeds and is the object constructor here. -/
def dependencyBlocksToCtyValueGo :
    List Dependency → List (String × CtyVal) → GoR CtyVal
  | [], dependencyMap => .ok (.objectV dependencyMap)
  | dependencyConfig :: rest, dependencyMap =>
    match setRenderedOutputs dependencyConfig with
    | .crash m => .crash m
    | .err e => .err e
    | .ok updated =>
      let dependencyEncodingMap : List (String × CtyVal) :=
        match updated.renderedOutputs with
        | some v => [("outputs", v)]
        | none => []
      dependencyBlocksToCtyValueGo rest
        (insertGoMap dependencyMap updated.name (.objectV dependencyEncodingMap))

/-- Embedding of `dependencyBlocksToCtyValue`: fold the dependency list
into one object value keyed by dependency name. -/
def dependencyBlocksToCtyValue (dependencyConfigs : List Dependency) : GoR CtyVal :=
  dependencyBlocksToCtyValueGo dependencyConfigs []

/-! ## Evaluation context -/

/-- Embedding of `EvalContextExtensions`. -/
structure EvalContextExtensions where
  decodedDependencies : Option CtyVal

/-- Embedding of `hcl.EvalContext` restricted to what
`CreateTerragruntEvalContext` populates: the variable scope (field name
kept capitalized as in the source). -/
structure EvalContext where
  Variables : List (String × CtyVal)

/-- Embedding of `CreateTerragruntEvalContext`: an empty variable scope,
plus the `dependency` variable exactly when decoded dependencies are
present.  The error result in the source is always nil. -/
def CreateTerragruntEvalContext (extensions : EvalContextExtensions) : EvalContext :=
  match extensions.decodedDependencies with
  | none => { Variables := [] }
  | some v => { Variables := [("dependency", v)] }

/-! ## Bare include normalization -/

/-- A top-level block as seen through hclwrite: its type and its labels. -/
structure WriteBlock where
  type : String
  labels : List String

/-- The loop test of `updateBareIncludeBlock`: an `include` block with no
labels. -/
def isBareInclude (b : WriteBlock) : Bool :=
  b.type == "include" && b.labels.isEmpty

/-- The rewrite `updateBareIncludeBlock` applies to a bare include block:
attach the single synthetic empty-string label. -/
def setBareLabel (b : WriteBlock) : WriteBlock :=
  if isBareInclude b then { b with labels := [""] } else b

/-- Number of bare include blocks among the top-level blocks. -/
def bareIncludeCount (blocks : List WriteBlock) : Nat :=
  blocks.countP (fun b => isBareInclude b)

/-- The loop of `updateBareIncludeBlock`, threading the `codeWasUpdated`
flag: the first bare include is relabelled, a second one aborts with the
multiple-bare-includes error. -/
def updateBareIncludeBlockGo :
    List WriteBlock → Bool → Except GoError (List WriteBlock × Bool)
  | [], codeWasUpdated => .ok ([], codeWasUpdated)
  | b :: rest, codeWasUpdated =>
    if isBareInclude b then
      if codeWasUpdated then .error .multipleBareIncludes
      else
        match updateBareIncludeBlockGo rest true with
        | .error e => .error e
        | .ok (rest1, c) => .ok ({ b with labels := [""] } :: rest1, c)
    else
      match updateBareIncludeBlockGo rest codeWasUpdated with
      | .error e => .error e
      | .ok (rest1, c) => .ok (b :: rest1, c)

/-- Embedding of `updateBareIncludeBlock` over the hclwrite view of the
top-level blocks (the re-parse through `hclwrite.ParseConfig` of bytes the
HCL parser already accepted succeeds; its diagnostics path is not
modelled).  Returns the updated block list and whether anything changed. -/
def updateBareIncludeBlock (blocks : List WriteBlock) :
    Except GoError (List WriteBlock × Bool) :=
  updateBareIncludeBlockGo blocks false

/-! ## Documents, the two decode targets and the public configuration -/

/-- Embedding of `TerraformConfig`. -/
structure TerraformConfig where
  source : Option String

/-- A parsed, syntactically valid HCL document, abstracted at the
collaborator boundary: `blocks` is the hclwrite view of the top-level
blocks (what the normalizer scans); the remaining fields are the views
the gohcl structural decoder extracts from the same content, with
attribute expressions already evaluated by the out-of-scope expression
evaluator. -/
structure Document where
  blocks : List WriteBlock
  dependencyBlocks : List DependencyBlock
  terraform : Option TerraformConfig
  terraformBinary : Option String
  inputs : Option CtyVal

/-- Embedding of `TerragruntConfigFile`, the second-pass decode target.
`includeBlocks` keeps only the labels (`terragruntIncludeIgnore` leaves
bodies opaque). -/
structure TerragruntConfigFile where
  terraform : Option TerraformConfig
  terraformBinary : Option String
  inputs : Option CtyVal
  terragruntDependencies : List Dependency
  includeBlocks : List String

/-- Embedding of the public `TerragruntConfig`.  `inputs` models the Go
map field: `none` is the nil map (the never-assigned zero value, or an
assigned nil returned by the conversion of a null inputs value), distinct
from an assigned non-nil empty map (`some []`). -/
structure TerragruntConfig where
  terraform : Option TerraformConfig
  terraformBinary : String
  inputs : Option (List (String × GoVal))
  terragruntDependencies : List Dependency

/-- Embedding of `decodeAndRetrieveOutputs`: `decodeHCL` first normalizes
bare includes, then structurally decodes only the `dependency` blocks
(first pass, empty variable scope), and the decoded list is encoded by
`dependencyBlocksToCtyValue`. -/
def decodeAndRetrieveOutputs (doc : Document) : GoR CtyVal :=
  match updateBareIncludeBlock doc.blocks with
  | .error e => .err e
  | .ok _ =>
    dependencyBlocksToCtyValue (doc.dependencyBlocks.map decodeDependencyBlock)

/-- Embedding of `decodeAsTerragruntConfigFile` (through `decodeHCL`):
normalize bare includes, build the evaluation context from the
extensions, and structurally decode the whole document.  On success the
returned pointer is the address of a fresh struct, never nil — hence
`ok (some ...)` on every non-error path. -/
def decodeAsTerragruntConfigFile (doc : Document)
    (extensions : EvalContextExtensions) : GoR (Option TerragruntConfigFile) :=
  match updateBareIncludeBlock doc.blocks with
  | .error e => .err e
  | .ok (blocks1, _) =>
    let _evalContext := CreateTerragruntEvalContext extensions
    .ok (some
      { terraform := doc.terraform
        terraformBinary := doc.terraformBinary
        inputs := doc.inputs
        terragruntDependencies := doc.dependencyBlocks.map decodeDependencyBlock
        includeBlocks :=
          (blocks1.filter (fun b => b.type == "include")).map
            (fun b => b.labels.headD "") })

/-- Embedding of `convertToTerragruntConfig`: terraform sub-config and
dependency list are copied through; the binary override is dereferenced
with an empty-string default; `inputs`, when present, is assigned the
`parseCtyValueToMap` conversion of its value (itself the nil map when the
value is cty null), and is otherwise left at the struct's zero value
(the nil map). -/
def convertToTerragruntConfig (configFromFile : TerragruntConfigFile) :
    Except GoError TerragruntConfig :=
  let terraformBinary :=
    match configFromFile.terraformBinary with
    | some s => s
    | none => ""
  match configFromFile.inputs with
  | none =>
    .ok { terraform := configFromFile.terraform
          terraformBinary := terraformBinary
          inputs := none
          terragruntDependencies := configFromFile.terragruntDependencies }
  | some v =>
    match parseCtyValueToMap v with
    | .error e => .error e
    | .ok inputs =>
      .ok { terraform := configFromFile.terraform
            terraformBinary := terraformBinary
            inputs := inputs
            terragruntDependencies := configFromFile.terragruntDependencies }

/-- The evaluation context `decodeHCL` builds for the second (full) decode
inside `ParseConfig`: the extensions carry the resolver's output, which is
a non-nil pointer on every success path, so the context binds
`dependency` to it. -/
def secondPassEvalContext (doc : Document) : GoR EvalContext :=
  match decodeAndRetrieveOutputs doc with
  | .crash m => .crash m
  | .err e => .err e
  | .ok retrievedOutputs =>
    .ok (CreateTerragruntEvalContext { decodedDependencies := some retrievedOutputs })

/-- Embedding of `ParseConfig`: resolve dependency outputs, decode the
full document against the extended context, reject a nil decode target
(`noConfigurationFound` — the decoder never returns one on success), and
assemble the public configuration. -/
def ParseConfig (doc : Document) : GoR TerragruntConfig :=
  match decodeAndRetrieveOutputs doc with
  | .crash m => .crash m
  | .err e => .err e
  | .ok retrievedOutputs =>
    let extensions : EvalContextExtensions := { decodedDependencies := some retrievedOutputs }
    match decodeAsTerragruntConfigFile doc extensions with
    | .crash m => .crash m
    | .err e => .err e
    | .ok none => .err .noConfigurationFound
    | .ok (some terragruntConfigFile) =>
      match convertToTerragruntConfig terragruntConfigFile with
      | .error e => .err e
      | .ok config => .ok config


/-! ## Shared concrete inputs -/

/-- The record value of `mock_outputs = (a = 1, b = "x")`. -/
def mockOutputsAB : CtyVal := .objectV [("a", .numV 1), ("b", .strV "x")]

/-- A decoded dependency block carrying `mockOutputsAB`. -/
def depAB : Dependency :=
  decodeDependencyBlock ⟨"dep", "../app", none, some mockOutputsAB, none, none⟩

/-- A decoded dependency block with no `mock_outputs` attribute. -/
def depNoMock : Dependency :=
  decodeDependencyBlock ⟨"dep", "../app", none, none, none, none⟩

/-- A document whose single dependency block has no `mock_outputs`. -/
def docNoMock : Document :=
  { blocks := [⟨"dependency", ["dep"]⟩]
    dependencyBlocks := [⟨"dep", "../app", none, none, none, none⟩]
    terraform := none
    terraformBinary := none
    inputs := none }

/-- A decoded dependency block with string-only mock outputs. -/
def depB : Dependency :=
  decodeDependencyBlock ⟨"dep", "../app", none, some (.objectV [("b", .strV "x")]), none, none⟩

/-- The dependency `depB` after the resolver has rendered its outputs. -/
def depBResolved : Dependency :=
  { depB with renderedOutputs := some (.objectV [("b", .strV "x")]) }

/-- A syntactically valid document with no recognizable blocks or
attributes at all. -/
def emptyDoc : Document :=
  { blocks := [], dependencyBlocks := [], terraform := none
    terraformBinary := none, inputs := none }

/-- The zero-value public configuration. -/
def emptyConfig : TerragruntConfig :=
  { terraform := none, terraformBinary := "", inputs := none
    terragruntDependencies := [] }

/-- A decode target with every optional attribute absent. -/
def fileNoInputs : TerragruntConfigFile :=
  { terraform := none, terraformBinary := none, inputs := none
    terragruntDependencies := [], includeBlocks := [] }

/-- A decode target whose `inputs` attribute is present but null. -/
def fileNullInputs : TerragruntConfigFile :=
  { terraform := none, terraformBinary := none, inputs := some (.nullV .dynamic)
    terragruntDependencies := [], includeBlocks := [] }

/-- Top-level blocks with exactly one bare include block. -/
def oneBareIncludeBlocks : List WriteBlock :=
  [⟨"include", []⟩, ⟨"terraform", []⟩]

/-- A dependency with all three mock-policy flag fields unset. -/
def depFlagsA : Dependency :=
  ⟨"dep", "../app", none, some (.objectV [("b", .strV "x")]), none, none, none⟩

/-- Same name and mock outputs as `depFlagsA`, every flag field set. -/
def depFlagsB : Dependency :=
  ⟨"dep", "../app", some true, some (.objectV [("b", .strV "x")]),
    some ["plan"], some false, none⟩


/-! ## Helper lemmas for the bare-include normalizer -/

lemma setBareLabel_of_not_bare {b : WriteBlock} (h : isBareInclude b = false) :
    setBareLabel b = b := by
  simp [setBareLabel, h]

lemma map_setBareLabel_self {l : List WriteBlock} (h : bareIncludeCount l = 0) :
    l.map setBareLabel = l := by
  induction l with
  | nil => rfl
  | cons b rest ih =>
    rw [bareIncludeCount, List.countP_cons] at h
    cases hb : isBareInclude b with
    | true => rw [hb] at h; simp at h
    | false =>
      rw [hb] at h
      simp only [List.map_cons, setBareLabel_of_not_bare hb]
      rw [ih (by simpa [bareIncludeCount] using h)]

lemma updateBareIncludeBlockGo_true (l : List WriteBlock) :
    (bareIncludeCount l = 0 → updateBareIncludeBlockGo l true = .ok (l, true)) ∧
    (bareIncludeCount l ≠ 0 →
      updateBareIncludeBlockGo l true = .error .multipleBareIncludes) := by
  induction l with
  | nil => exact ⟨fun _ => rfl, fun h => absurd rfl h⟩
  | cons b rest ih =>
    have hcount : bareIncludeCount (b :: rest) =
        bareIncludeCount rest + (if isBareInclude b then 1 else 0) := by
      rw [bareIncludeCount, List.countP_cons]; rfl
    cases hb : isBareInclude b with
    | true =>
      refine ⟨fun h => ?_, fun _ => ?_⟩
      · rw [hcount, hb] at h; simp at h
      · simp [updateBareIncludeBlockGo, hb]
    | false =>
      rw [hb] at hcount
      simp only [if_neg Bool.false_ne_true, Nat.add_zero] at hcount
      refine ⟨fun h => ?_, fun h => ?_⟩
      · rw [hcount] at h
        simp [updateBareIncludeBlockGo, hb, ih.1 h]
      · rw [hcount] at h
        simp [updateBareIncludeBlockGo, hb, ih.2 h]

lemma updateBareIncludeBlockGo_false (l : List WriteBlock) :
    (bareIncludeCount l = 0 → updateBareIncludeBlockGo l false = .ok (l, false)) ∧
    (bareIncludeCount l = 1 →
      updateBareIncludeBlockGo l false = .ok (l.map setBareLabel, true)) ∧
    (2 ≤ bareIncludeCount l →
      updateBareIncludeBlockGo l false = .error .multipleBareIncludes) := by
  induction l with
  | nil =>
    refine ⟨fun _ => rfl, fun h => ?_, fun h => ?_⟩ <;>
      simp [bareIncludeCount] at h
  | cons b rest ih =>
    have hcount : bareIncludeCount (b :: rest) =
        bareIncludeCount rest + (if isBareInclude b then 1 else 0) := by
      rw [bareIncludeCount, List.countP_cons]; rfl
    cases hb : isBareInclude b with
    | false =>
      rw [hb] at hcount
      simp only [if_neg Bool.false_ne_true, Nat.add_zero] at hcount
      refine ⟨fun h => ?_, fun h => ?_, fun h => ?_⟩
      · rw [hcount] at h
        simp [updateBareIncludeBlockGo, hb, ih.1 h]
      · rw [hcount] at h
        simp [updateBareIncludeBlockGo, hb, ih.2.1 h, setBareLabel_of_not_bare hb]
      · rw [hcount] at h
        simp [updateBareIncludeBlockGo, hb, ih.2.2 h]
    | true =>
      rw [hb, if_pos rfl] at hcount
      refine ⟨fun h => ?_, fun h => ?_, fun h => ?_⟩
      · rw [hcount] at h; omega
      · rw [hcount] at h
        have hrest : bareIncludeCount rest = 0 := by omega
        simp [updateBareIncludeBlockGo, hb, (updateBareIncludeBlockGo_true rest).1 hrest,
          setBareLabel, map_setBareLabel_self hrest]
      · rw [hcount] at h
        have hrest : bareIncludeCount rest ≠ 0 := by omega
        simp [updateBareIncludeBlockGo, hb, (updateBareIncludeBlockGo_true rest).2 hrest]

/-- C5: a document with exactly one unlabeled include block is rewritten so
that block carries the single synthetic empty-string label and the change
flag is reported true; the `MultipleBareIncludes` error is returned exactly
when the document has two or more unlabeled include blocks, wherever they
appear among the top-level blocks. -/
theorem updateBareIncludeBlock_spec (blocks : List WriteBlock) :
    (bareIncludeCount blocks = 1 →
      updateBareIncludeBlock blocks = .ok (blocks.map setBareLabel, true)) ∧
    (updateBareIncludeBlock blocks = .error .multipleBareIncludes ↔
      2 ≤ bareIncludeCount blocks) := by
  refine ⟨(updateBareIncludeBlockGo_false blocks).2.1, ?_,
    (updateBareIncludeBlockGo_false blocks).2.2⟩
  intro h
  by_contra hn
  have hsmall : bareIncludeCount blocks = 0 ∨ bareIncludeCount blocks = 1 := by omega
  unfold updateBareIncludeBlock at h
  rcases hsmall with h0 | h1
  · rw [(updateBareIncludeBlockGo_false blocks).1 h0] at h
    exact Except.noConfusion h
  · rw [(updateBareIncludeBlockGo_false blocks).2.1 h1] at h
    exact Except.noConfusion h

/-- Witness for C5 at a concrete two-block document with one bare include. -/
theorem updateBareIncludeBlock_spec_witness :
    updateBareIncludeBlock oneBareIncludeBlocks =
      .ok (oneBareIncludeBlocks.map setBareLabel, true) :=
  (updateBareIncludeBlock_spec oneBareIncludeBlocks).1 rfl


/-! ## Dependency resolution at concrete inputs (C1, C2) -/

/-- C1: evaluation of the code at `mock_outputs = (a = 1, b = "x")`.  The
resolver does not produce the record `(a: 1, b: "x")`: `getTerragruntOutput`
stores the Go reflect type string of each JSON-decoded mock value
("float64" for the number) in the `Type` field that
`terraformOutputJsonToCtyValueMap` then decodes as cty type JSON, which
rejects "float64" as an unsupported primitive type name, so resolution of
this dependency (and of any document containing it) fails with that error
instead of yielding the outputs record. -/
theorem mock_numeric_outputs_resolution_errors :
    getTerragruntOutput depAB = .err (.unsupportedPrimitiveTypeName "float64") ∧
    dependencyBlocksToCtyValue [depAB] =
      .err (.unsupportedPrimitiveTypeName "float64") :=
  ⟨rfl, rfl⟩

/-- C2: evaluation of the code at a dependency block with no `mock_outputs`
attribute.  `getTerragruntOutput` dereferences `dependencyConfig.MockOutputs`
unconditionally, so resolving such a dependency does not succeed with
`rendered_outputs` unset — it crashes with a nil-pointer dereference, and so
does `ParseConfig` on any document containing such a block. -/
theorem missing_mock_outputs_crashes :
    getTerragruntOutput depNoMock = .crash nilPointerDereferenceMsg ∧
    dependencyBlocksToCtyValue [depNoMock] = .crash nilPointerDereferenceMsg ∧
    ParseConfig docNoMock = .crash nilPointerDereferenceMsg :=
  ⟨rfl, rfl, rfl⟩

/-! ## The second-pass evaluation context (C3) -/

/-- C3 counterexample: a syntactically valid document with zero dependency
blocks for which the second-pass evaluation context is not empty — it binds
the `dependency` variable (to the empty record), because
`dependencyBlocksToCtyValue` returns a non-nil pointer even for an empty
dependency list and `ParseConfig` stores it in the extensions
unconditionally. -/
theorem zero_dependency_context_counterexample :
    emptyDoc.dependencyBlocks = [] ∧
    secondPassEvalContext emptyDoc =
      .ok { Variables := [("dependency", CtyVal.objectV [])] } ∧
    ({ Variables := [("dependency", CtyVal.objectV [])] } : EvalContext).Variables ≠
      [] :=
  ⟨rfl, rfl, fun h => List.noConfusion h⟩

/-- C3 amended: for every syntactically valid document with zero dependency
blocks (whose bare-include normalization succeeds), the evaluation context
used for the second-pass decode binds exactly one variable — `dependency`,
bound to the empty record value. -/
theorem zero_dependency_context_binds_dependency (doc : Document)
    (hdeps : doc.dependencyBlocks = [])
    (hnorm : ∃ r, updateBareIncludeBlock doc.blocks = .ok r) :
    secondPassEvalContext doc =
      .ok { Variables := [("dependency", CtyVal.objectV [])] } := by
  obtain ⟨r, hr⟩ := hnorm
  simp [secondPassEvalContext, decodeAndRetrieveOutputs, hr, hdeps,
    dependencyBlocksToCtyValue, dependencyBlocksToCtyValueGo,
    CreateTerragruntEvalContext]

/-- Witness for C3's amended theorem at the empty document. -/
theorem zero_dependency_context_binds_dependency_witness :
    secondPassEvalContext emptyDoc =
      .ok { Variables := [("dependency", CtyVal.objectV [])] } :=
  zero_dependency_context_binds_dependency emptyDoc rfl ⟨([], false), rfl⟩

/-! ## ParseConfig on the empty document (C4) -/

/-- C4 counterexample: on the empty-but-syntactically-valid document,
`ParseConfig` does not return the no-terragrunt-configuration-found error —
it returns the empty configuration, because `decodeAsTerragruntConfigFile`
returns the address of a freshly allocated struct on every success path,
so the nil-target guard in `ParseConfig` never fires. -/
theorem empty_document_counterexample :
    ParseConfig emptyDoc = .ok emptyConfig ∧
    ParseConfig emptyDoc ≠ .err .noConfigurationFound :=
  ⟨rfl, fun h =>
    GoR.noConfusion ((rfl : GoR.ok emptyConfig = ParseConfig emptyDoc).trans h)⟩

/-- C4 amended: for every syntactically valid document with no recognizable
top-level blocks or attributes, `ParseConfig` succeeds and returns the empty
configuration (empty binary path, nil inputs, no terraform sub-config, no
dependencies); the `NoConfigurationFound` branch is unreachable. -/
theorem empty_document_returns_empty_config (doc : Document)
    (hb : doc.blocks = []) (hd : doc.dependencyBlocks = [])
    (ht : doc.terraform = none) (htb : doc.terraformBinary = none)
    (hi : doc.inputs = none) :
    ParseConfig doc = .ok emptyConfig := by
  obtain ⟨b, d, t, tb, i⟩ := doc
  have hb1 : b = [] := hb
  have hd1 : d = [] := hd
  have ht1 : t = none := ht
  have htb1 : tb = none := htb
  have hi1 : i = none := hi
  subst hb1; subst hd1; subst ht1; subst htb1; subst hi1
  rfl

/-- Witness for C4's amended theorem at the empty document. -/
theorem empty_document_returns_empty_config_witness :
    ParseConfig emptyDoc = .ok emptyConfig :=
  empty_document_returns_empty_config emptyDoc rfl rfl rfl rfl rfl


/-! ## Rendered outputs are records (C6) -/

lemma getTerragruntOutput_ok_shape (d : Dependency) (v : CtyVal) (b : Bool)
    (h : getTerragruntOutput d = .ok (v, b)) :
    ∃ fields, v = .objectV fields := by
  unfold getTerragruntOutput at h
  split at h
  · exact GoR.noConfusion h
  · split at h
    · exact GoR.noConfusion h
    · split at h
      · exact GoR.noConfusion h
      · split at h
        · exact GoR.noConfusion h
        · rename_i outputMap heq
          injection h with h1
          exact ⟨outputMap, (congrArg Prod.fst h1).symm⟩

/-- C6: `rendered_outputs` is never read from the document (structural
decoding of a dependency block leaves it unset), and for any dependency on
which the resolver's `setRenderedOutputs` step succeeds — in particular any
dependency whose `mock_outputs` is present, since an absent one never
reaches success — the computed `rendered_outputs` is set to a value of
record (object) shape, possibly with zero fields, never null. -/
theorem renderedOutputs_record_invariant :
    (∀ b : DependencyBlock, (decodeDependencyBlock b).renderedOutputs = none) ∧
    (∀ (d d' : Dependency), d.mockOutputs.isSome = true →
      setRenderedOutputs d = .ok d' →
      ∃ fields, d'.renderedOutputs = some (CtyVal.objectV fields)) := by
  refine ⟨fun b => rfl, fun d d' _hmock hok => ?_⟩
  cases hg : getTerragruntOutput d with
  | crash msg =>
    simp [setRenderedOutputs, getTerragruntOutputIfAppliedElseConfiguredDefault,
      hg] at hok
  | err e =>
    simp [setRenderedOutputs, getTerragruntOutputIfAppliedElseConfiguredDefault,
      hg] at hok
  | ok p =>
    obtain ⟨v, b⟩ := p
    obtain ⟨fields, hf⟩ := getTerragruntOutput_ok_shape d v b hg
    have hd : { d with renderedOutputs := some v } = d' := by
      simpa [setRenderedOutputs, getTerragruntOutputIfAppliedElseConfiguredDefault,
        hg] using hok
    rw [← hd, hf]
    exact ⟨fields, rfl⟩

/-- Witness for C6 at a dependency whose mock outputs hold one string. -/
theorem renderedOutputs_record_invariant_witness :
    ∃ fields, depBResolved.renderedOutputs = some (CtyVal.objectV fields) :=
  renderedOutputs_record_invariant.2 depB depBResolved rfl rfl

/-! ## The assembler's defaults (C7) -/

/-- C7 counterexample: a decode target with `inputs` absent, on which the
assembler leaves the public `Inputs` field at the Go zero value — the nil
map — rather than setting it to an (assigned, non-nil) empty mapping. -/
theorem absent_inputs_stay_nil_counterexample :
    convertToTerragruntConfig fileNoInputs = .ok emptyConfig ∧
    emptyConfig.inputs = none ∧
    (none : Option (List (String × GoVal))) ≠ some [] :=
  ⟨rfl, rfl, fun h => Option.noConfusion h⟩

/-- C7 amended: for every successfully assembled decode target, the
assembler sets `TerraformBinary` to the empty string when the
terraform-binary attribute is absent and to its dereferenced value
otherwise, and leaves `Inputs` at the nil map when the `inputs` attribute
is absent while assigning it the `parseCtyValueToMap` conversion of its
value otherwise — the nil map again when that value is cty null, the
assigned converted map when it is a record. -/
theorem convertToTerragruntConfig_defaults (f : TerragruntConfigFile)
    (cfg : TerragruntConfig) (h : convertToTerragruntConfig f = .ok cfg) :
    (f.terraformBinary = none → cfg.terraformBinary = "") ∧
    (∀ s, f.terraformBinary = some s → cfg.terraformBinary = s) ∧
    (f.inputs = none → cfg.inputs = none) ∧
    (∀ v, f.inputs = some v →
      ∃ m, parseCtyValueToMap v = .ok m ∧ cfg.inputs = m) := by
  rcases hfi : f.inputs with _ | v
  · simp only [convertToTerragruntConfig, hfi] at h
    injection h with h1
    subst h1
    exact ⟨fun hfb => by simp [hfb], fun s hfb => by simp [hfb], fun _ => rfl,
      fun v hv => Option.noConfusion hv⟩
  · simp only [convertToTerragruntConfig, hfi] at h
    rcases hp : parseCtyValueToMap v with e | m
    · rw [hp] at h
      exact Except.noConfusion h
    · rw [hp] at h
      injection h with h1
      subst h1
      refine ⟨fun hfb => by simp [hfb], fun s hfb => by simp [hfb],
        fun hni => Option.noConfusion hni, fun w hw => ?_⟩
      injection hw with hw1
      subst hw1
      exact ⟨m, hp, rfl⟩

/-- Witness for C7's amended theorem at a decode target with both optional
attributes absent, and at one whose inputs value is null — there the
conversion result assigned to `Inputs` is itself the nil map. -/
theorem convertToTerragruntConfig_defaults_witness :
    emptyConfig.terraformBinary = "" ∧ emptyConfig.inputs = none ∧
    (∃ m, parseCtyValueToMap (CtyVal.nullV .dynamic) = .ok m ∧
      emptyConfig.inputs = m) :=
  ⟨(convertToTerragruntConfig_defaults fileNoInputs emptyConfig rfl).1 rfl,
   (convertToTerragruntConfig_defaults fileNoInputs emptyConfig rfl).2.2.1 rfl,
   (convertToTerragruntConfig_defaults fileNullInputs emptyConfig rfl).2.2.2
     (CtyVal.nullV .dynamic) rfl⟩


/-! ## Synthetic record types (C8) -/

/-- C8: `generateTypeFromValuesMap` returns an object (record) type whose
field names are exactly the mapping's keys, in order, and whose field type
for each entry is the runtime type of that entry's value. -/
theorem generateTypeFromValuesMap_spec (valMap : List (String × CtyVal)) :
    ∃ fieldTypes,
      generateTypeFromValuesMap valMap = .object fieldTypes ∧
      fieldTypes.map Prod.fst = valMap.map Prod.fst ∧
      ∀ k v, (k, v) ∈ valMap → (k, ctyTypeOf v) ∈ fieldTypes := by
  refine ⟨ctyFieldTypes valMap, rfl, ?_, ?_⟩
  · induction valMap with
    | nil => rfl
    | cons p rest ih =>
      obtain ⟨k, v⟩ := p
      simpa [ctyFieldTypes] using ih
  · intro k v hm
    induction valMap with
    | nil => cases hm
    | cons p rest ih =>
      obtain ⟨k0, v0⟩ := p
      rcases List.mem_cons.mp hm with heq | htail
      · rw [ctyFieldTypes]
        injection heq with h1 h2
        subst h1; subst h2
        exact List.mem_cons_self _ _
      · rw [ctyFieldTypes]
        exact List.mem_cons_of_mem _ (ih htail)

/-- Witness for C8 at a concrete two-entry mapping. -/
theorem generateTypeFromValuesMap_spec_witness :
    ∃ fieldTypes,
      generateTypeFromValuesMap [("a", CtyVal.numV 1), ("b", CtyVal.strV "x")] =
        .object fieldTypes ∧
      fieldTypes.map Prod.fst =
        [("a", CtyVal.numV 1), ("b", CtyVal.strV "x")].map Prod.fst ∧
      ∀ k v, (k, v) ∈ [("a", CtyVal.numV 1), ("b", CtyVal.strV "x")] →
        (k, ctyTypeOf v) ∈ fieldTypes :=
  generateTypeFromValuesMap_spec [("a", CtyVal.numV 1), ("b", CtyVal.strV "x")]

/-! ## The assembler's frame (C9) -/

/-- C9: on every successful assembly, `convertToTerragruntConfig` copies the
terraform sub-config and the dependency list through unchanged. -/
theorem convertToTerragruntConfig_frame (f : TerragruntConfigFile)
    (cfg : TerragruntConfig) (h : convertToTerragruntConfig f = .ok cfg) :
    cfg.terraform = f.terraform ∧
    cfg.terragruntDependencies = f.terragruntDependencies := by
  rcases hfi : f.inputs with _ | v
  · simp only [convertToTerragruntConfig, hfi] at h
    injection h with h1
    subst h1
    exact ⟨rfl, rfl⟩
  · simp only [convertToTerragruntConfig, hfi] at h
    rcases hp : parseCtyValueToMap v with e | m
    · rw [hp] at h
      exact Except.noConfusion h
    · rw [hp] at h
      injection h with h1
      subst h1
      exact ⟨rfl, rfl⟩

/-- Witness for C9 at a concrete decode target. -/
theorem convertToTerragruntConfig_frame_witness :
    emptyConfig.terraform = fileNoInputs.terraform ∧
    emptyConfig.terragruntDependencies = fileNoInputs.terragruntDependencies :=
  convertToTerragruntConfig_frame fileNoInputs emptyConfig rfl

/-! ## The flag fields do not influence resolution (C10) -/

/-- C10: two decoded dependencies that agree on `Name` and `MockOutputs`
resolve identically — `getTerragruntOutput` returns the same result and the
resolver encodes the same dependency value — whatever their `SkipOutputs`,
`MockOutputsAllowedTerraformCommands` and `MockOutputsMergeWithState`
fields are. -/
theorem dependency_resolution_ignores_flag_fields (d1 d2 : Dependency)
    (hname : d1.name = d2.name) (hmock : d1.mockOutputs = d2.mockOutputs) :
    getTerragruntOutput d1 = getTerragruntOutput d2 ∧
    dependencyBlocksToCtyValue [d1] = dependencyBlocksToCtyValue [d2] := by
  obtain ⟨n1, c1, s1, m1, a1, g1, r1⟩ := d1
  obtain ⟨n2, c2, s2, m2, a2, g2, r2⟩ := d2
  have hn : n1 = n2 := hname
  have hm : m1 = m2 := hmock
  subst hn; subst hm
  have h1 : getTerragruntOutput ⟨n1, c1, s1, m1, a1, g1, r1⟩ =
      getTerragruntOutput ⟨n1, c2, s2, m1, a2, g2, r2⟩ := rfl
  refine ⟨h1, ?_⟩
  cases hg : getTerragruntOutput ⟨n1, c2, s2, m1, a2, g2, r2⟩ with
  | crash msg =>
    simp [dependencyBlocksToCtyValue, dependencyBlocksToCtyValueGo,
      setRenderedOutputs, getTerragruntOutputIfAppliedElseConfiguredDefault,
      hg, h1.trans hg]
  | err e =>
    simp [dependencyBlocksToCtyValue, dependencyBlocksToCtyValueGo,
      setRenderedOutputs, getTerragruntOutputIfAppliedElseConfiguredDefault,
      hg, h1.trans hg]
  | ok p =>
    simp [dependencyBlocksToCtyValue, dependencyBlocksToCtyValueGo,
      setRenderedOutputs, getTerragruntOutputIfAppliedElseConfiguredDefault,
      hg, h1.trans hg]

/-- Witness for C10 at two concrete dependencies differing in all three
flag fields. -/
theorem dependency_resolution_ignores_flag_fields_witness :
    getTerragruntOutput depFlagsA = getTerragruntOutput depFlagsB ∧
    dependencyBlocksToCtyValue [depFlagsA] = dependencyBlocksToCtyValue [depFlagsB] :=
  dependency_resolution_ignores_flag_fields depFlagsA depFlagsB rfl rfl

end Terragrunt
